import Mathlib

/-!
Verification of the nodo-documentos RAG core against its specification.

The definitions below are shallow embeddings of the Python source:

* `rag/chunking/chunker.py`   — overlap computation, page resolution, chunking
* `rag/chunking/models.py`    — the pydantic `Chunk` model and its validation
* `rag/parsing/models.py`     — `ParsedDocument.from_ocr_response` page boundaries
* `rag/parsing/section_extractor.py` — regex-based markdown section extraction
* `rag/encoding/encoder.py`   — batched embedding
* `rag/vector_db/db.py`       — vector index and ownership-filtered search
* `services/rag_service.py`   — background ingestion flow
* `services/chat_service.py`  — retrieval orchestrator

Python strings are modelled as `List Char` where character positions matter and
as `String` elsewhere; Python `int` is modelled as `Int` (or `Nat` where the
source value is always non-negative); a raised exception is an `Except.error`.
-/

/-! ### chunking/models.py and parsing/models.py: data model -/

/-- `PageInfo` from `rag/parsing/models.py`: page boundary information mapping a
character interval of the concatenated text to a 1-based page number. -/
structure PageInfo where
  page_number : Nat
  char_start : Nat
  char_end : Nat
deriving DecidableEq, Repr

/-- `Section` from `rag/parsing/models.py` (field `title` kept as `List Char`
because the extractor works at character level). -/
structure SectionInfo where
  title : List Char
  start_index : Nat
  end_index : Nat
  level : Nat
deriving DecidableEq, Repr

/-! ### chunker.py: `_calculate_overlap` -/

/-- Python `previous[-size:]`: the suffix of length `size` (for `1 ≤ size ≤ len`). -/
def pySuffix (l : List Char) (n : Nat) : List Char := l.drop (l.length - n)

/-- The descending `for size in range(max_possible, 0, -1)` loop of
`PDFChunker._calculate_overlap`: returns the first (largest) `size ≤ n` with
`previous[-size:] == current[:size]`, else 0. -/
def overlapLoop (prev curr : List Char) : Nat → Nat
  | 0 => 0
  | n + 1 =>
    if pySuffix prev (n + 1) = curr.take (n + 1) then n + 1
    else overlapLoop prev curr n

/-- `PDFChunker._calculate_overlap(previous, current)` from `rag/chunking/chunker.py`. -/
def calculate_overlap (previous : Option (List Char)) (current : List Char) : Nat :=
  match previous with
  | none => 0
  | some p =>
    if p = [] ∨ current = [] then 0
    else overlapLoop p current (min p.length current.length)

/-- Default `chunk_overlap` parameter of `PDFChunker.__init__`. -/
def default_chunk_overlap : Nat := 50

/-! ### chunker.py: `_get_page_at_position` and `_resolve_chunk_page` -/

/-- The `for page in doc.page_info` containment loop of
`PDFChunker._get_page_at_position`: first page with
`char_start <= char_pos < char_end`. -/
def findContainingPage : List PageInfo → Int → Option Nat
  | [], _ => none
  | p :: rest, pos =>
    if (p.char_start : Int) ≤ pos ∧ pos < (p.char_end : Int) then some p.page_number
    else findContainingPage rest pos

/-- `PDFChunker._get_page_at_position(doc, char_pos)` from `rag/chunking/chunker.py`:
containment loop, then the past-the-end fallback to the last page, then `None`. -/
def get_page_at_position (page_info : List PageInfo) (char_pos : Int) : Option Nat :=
  match findContainingPage page_info char_pos with
  | some n => some n
  | none =>
    match page_info.getLast? with
    | some lastPage =>
      if (lastPage.char_end : Int) ≤ char_pos then some lastPage.page_number else none
    | none => none

/-- `PDFChunker._resolve_chunk_page`: computes the chunk start as
`max(cursor - overlap, 0)`, resolves its page, and advances the cursor past the
chunk text. Returns `(page_number, new_cursor)`. -/
def resolve_chunk_page (page_info : List PageInfo) (chunk_text : List Char)
    (cursor : Int) (previous_chunk_text : Option (List Char)) : Option Nat × Int :=
  let overlap := calculate_overlap previous_chunk_text chunk_text
  let chunk_start := max (cursor - overlap) 0
  (get_page_at_position page_info chunk_start, chunk_start + chunk_text.length)

/-! ### lemmas about the overlap loop -/

theorem overlapLoop_le (prev curr : List Char) : ∀ n, overlapLoop prev curr n ≤ n := by
  intro n
  induction n with
  | zero => simp [overlapLoop]
  | succ k ih =>
    simp only [overlapLoop]
    split
    · exact le_refl _
    · exact Nat.le_succ_of_le ih

theorem overlapLoop_matches (prev curr : List Char) :
    ∀ n, overlapLoop prev curr n = 0 ∨
      pySuffix prev (overlapLoop prev curr n) = curr.take (overlapLoop prev curr n) := by
  intro n
  induction n with
  | zero => left; simp [overlapLoop]
  | succ k ih =>
    simp only [overlapLoop]
    split
    · right; assumption
    · exact ih

theorem overlapLoop_maximal (prev curr : List Char) :
    ∀ n m, overlapLoop prev curr n < m → m ≤ n →
      pySuffix prev m ≠ curr.take m := by
  intro n
  induction n with
  | zero => intro m h1 h2; omega
  | succ k ih =>
    intro m h1 h2
    simp only [overlapLoop] at h1
    split at h1
    · omega
    · rcases Nat.lt_or_ge m (k + 1) with hm | hm
      · exact ih m h1 (by omega)
      · have : m = k + 1 := by omega
        subst this
        assumption

/-! ### lemmas about page containment -/

theorem findContainingPage_eq_none (pages : List PageInfo) (pos : Int)
    (h : ∀ q ∈ pages, ¬((q.char_start : Int) ≤ pos ∧ pos < (q.char_end : Int))) :
    findContainingPage pages pos = none := by
  induction pages with
  | nil => rfl
  | cons q rest ih =>
    simp only [findContainingPage]
    rw [if_neg (h q (List.mem_cons_self q rest))]
    exact ih fun r hr => h r (List.mem_cons_of_mem q hr)

theorem findContainingPage_of_mem (pages : List PageInfo) (pos : Int) (p : PageInfo)
    (hmem : p ∈ pages)
    (hdisj : List.Pairwise (fun a b => a.char_end ≤ b.char_start) pages)
    (h1 : (p.char_start : Int) ≤ pos) (h2 : pos < (p.char_end : Int)) :
    findContainingPage pages pos = some p.page_number := by
  induction pages with
  | nil => cases hmem
  | cons q rest ih =>
    rcases List.mem_cons.mp hmem with rfl | hrest
    · simp only [findContainingPage]
      rw [if_pos ⟨h1, h2⟩]
    · have hq : ¬((q.char_start : Int) ≤ pos ∧ pos < (q.char_end : Int)) := by
        rintro ⟨_, hq2⟩
        have hle : q.char_end ≤ p.char_start :=
          (List.pairwise_cons.mp hdisj).1 p hrest
        have : (q.char_end : Int) ≤ (p.char_start : Int) := by exact_mod_cast hle
        omega
      simp only [findContainingPage]
      rw [if_neg hq]
      exact ih hrest (List.pairwise_cons.mp hdisj).2

/-- C5: `_get_page_at_position` returns the page whose interval contains the
cursor; at or past the last boundary's `char_end` (when that `char_end` is
maximal) it returns the last page's number; with no boundaries it returns
`none`. -/
theorem get_page_at_position_spec (pages : List PageInfo) (pos : Int) :
    (pages = [] → get_page_at_position pages pos = none)
    ∧ (∀ p, p ∈ pages →
        List.Pairwise (fun a b => a.char_end ≤ b.char_start) pages →
        (p.char_start : Int) ≤ pos → pos < (p.char_end : Int) →
        get_page_at_position pages pos = some p.page_number)
    ∧ (∀ lastPage, pages.getLast? = some lastPage →
        (∀ q ∈ pages, q.char_end ≤ lastPage.char_end) →
        (lastPage.char_end : Int) ≤ pos →
        get_page_at_position pages pos = some lastPage.page_number) := by
  refine ⟨?_, ?_, ?_⟩
  · rintro rfl; rfl
  · intro p hmem hdisj h1 h2
    unfold get_page_at_position
    rw [findContainingPage_of_mem pages pos p hmem hdisj h1 h2]
  · intro lastPage hlast hmax hpos
    have hnone : findContainingPage pages pos = none := by
      refine findContainingPage_eq_none pages pos fun q hq => ?_
      rintro ⟨_, hq2⟩
      have : (q.char_end : Int) ≤ (lastPage.char_end : Int) := by
        exact_mod_cast hmax q hq
      omega
    simp [get_page_at_position, hnone, hlast, hpos]

/-- Witness for C5 at the spec's own examples: boundaries
`[(1,0,10),(2,10,25)]` with cursor 12 resolve to page 2, cursor 30 resolves to
page 2 (past the end), and no boundaries resolve to `none`. -/
theorem get_page_at_position_spec_witness :
    get_page_at_position [⟨1, 0, 10⟩, ⟨2, 10, 25⟩] 12 = some 2
    ∧ get_page_at_position [⟨1, 0, 10⟩, ⟨2, 10, 25⟩] 30 = some 2
    ∧ get_page_at_position [] 12 = none := by
  refine ⟨?_, ?_, ?_⟩
  · exact (get_page_at_position_spec [⟨1, 0, 10⟩, ⟨2, 10, 25⟩] 12).2.1
      ⟨2, 10, 25⟩ (by decide) (by decide) (by decide) (by decide)
  · exact (get_page_at_position_spec [⟨1, 0, 10⟩, ⟨2, 10, 25⟩] 30).2.2
      ⟨2, 10, 25⟩ (by decide) (by decide) (by decide)
  · exact (get_page_at_position_spec [] 12).1 rfl

/-- C3 counterexample: with two identical 51-character chunk texts the computed
overlap is 51, exceeding `chunk_overlap`'s default of 50 — the claimed bound
`overlap ≤ chunkOverlap` does not hold for `_calculate_overlap`. -/
theorem calculate_overlap_exceeds_chunk_overlap :
    default_chunk_overlap <
      calculate_overlap (some (List.replicate 51 'a')) (List.replicate 51 'a') := by
  decide

/-- C3 (amended): `_calculate_overlap` returns the length of the longest string
that is simultaneously a suffix of the previous text and a prefix of the current
text (bounded by the shorter of the two lengths, not by `chunk_overlap`), and
`_resolve_chunk_page` uses the cursor `max(previousCursor - overlap, 0)` for the
current piece. -/
theorem calculate_overlap_longest_suffix (p c : List Char) (cursor : Int)
    (pages : List PageInfo) (hp : p ≠ []) (hc : c ≠ []) :
    calculate_overlap (some p) c ≤ min p.length c.length
    ∧ pySuffix p (calculate_overlap (some p) c) =
        c.take (calculate_overlap (some p) c)
    ∧ (∀ m, calculate_overlap (some p) c < m → m ≤ min p.length c.length →
        pySuffix p m ≠ c.take m)
    ∧ resolve_chunk_page pages c cursor (some p) =
        (get_page_at_position pages
          (max (cursor - (calculate_overlap (some p) c : Int)) 0),
         max (cursor - (calculate_overlap (some p) c : Int)) 0 + c.length) := by
  have hcalc : calculate_overlap (some p) c = overlapLoop p c (min p.length c.length) := by
    simp [calculate_overlap, hp, hc]
  refine ⟨?_, ?_, ?_, rfl⟩
  · rw [hcalc]; exact overlapLoop_le p c _
  · rcases overlapLoop_matches p c (min p.length c.length) with h0 | hm
    · rw [hcalc, h0]; simp [pySuffix]
    · rw [hcalc]; exact hm
  · intro m h1 h2
    rw [hcalc] at h1
    exact overlapLoop_maximal p c _ m h1 h2

/-- Witness for C3 at a concrete pair: previous `"ab"`, current `"bc"`. -/
theorem calculate_overlap_longest_suffix_witness :
    calculate_overlap (some ['a', 'b']) ['b', 'c'] ≤
      min (['a', 'b'] : List Char).length (['b', 'c'] : List Char).length
    ∧ pySuffix ['a', 'b'] (calculate_overlap (some ['a', 'b']) ['b', 'c']) =
        (['b', 'c'] : List Char).take (calculate_overlap (some ['a', 'b']) ['b', 'c'])
    ∧ (∀ m, calculate_overlap (some ['a', 'b']) ['b', 'c'] < m →
        m ≤ min (['a', 'b'] : List Char).length (['b', 'c'] : List Char).length →
        pySuffix ['a', 'b'] m ≠ (['b', 'c'] : List Char).take m)
    ∧ resolve_chunk_page [] ['b', 'c'] 5 (some ['a', 'b']) =
        (get_page_at_position []
          (max (5 - (calculate_overlap (some ['a', 'b']) ['b', 'c'] : Int)) 0),
         max (5 - (calculate_overlap (some ['a', 'b']) ['b', 'c'] : Int)) 0 +
           (['b', 'c'] : List Char).length) :=
  calculate_overlap_longest_suffix ['a', 'b'] ['b', 'c'] 5 [] (by decide) (by decide)

/-! ### parsing/models.py: `ParsedDocument.from_ocr_response` page boundaries -/

/-- The page-boundary loop of `ParsedDocument.from_ocr_response`
(`rag/parsing/models.py`): for each page text of length `L` starting at running
position `char_pos`, record `PageInfo(i + 1, char_pos, char_pos + L)` and then
advance `char_pos` by `L + 1` (page length plus the `"\n"` separator). -/
def build_page_info : List (List Char) → Nat → Nat → List PageInfo
  | [], _, _ => []
  | t :: rest, char_pos, i =>
    ⟨i + 1, char_pos, char_pos + t.length⟩ ::
      build_page_info rest (char_pos + t.length + 1) (i + 1)

/-- `ParsedDocument.from_ocr_response` restricted to what the claims need: the
concatenated text `"\n".join(pages_text)` and the page boundary list. -/
def from_ocr_pages (pages_text : List (List Char)) : List Char × List PageInfo :=
  (List.intercalate ['\n'] pages_text, build_page_info pages_text 0 0)

/-- C4 counterexample: for the two one-character pages `["a"], ["b"]` the text
is `"a\nb"` (length 3) but the boundaries are `[(1,0,1),(2,2,3)]`: position 1
(the separator) is covered by no interval, so the boundary list is not
contiguous and does not partition `[0, len(text))`. -/
theorem page_boundaries_not_contiguous :
    (from_ocr_pages [['a'], ['b']]).2 = [⟨1, 0, 1⟩, ⟨2, 2, 3⟩]
    ∧ (from_ocr_pages [['a'], ['b']]).1.length = 3
    ∧ ¬∃ p ∈ (from_ocr_pages [['a'], ['b']]).2, p.char_start ≤ 1 ∧ 1 < p.char_end := by
  decide

theorem build_page_info_forall2 (pages_text : List (List Char)) :
    ∀ cp i, List.Forall₂ (fun p (t : List Char) => p.char_end = p.char_start + t.length)
      (build_page_info pages_text cp i) pages_text := by
  induction pages_text with
  | nil => intro cp i; exact List.Forall₂.nil
  | cons t rest ih =>
    intro cp i
    exact List.Forall₂.cons rfl (ih _ _)

theorem build_page_info_head_start (pages_text : List (List Char)) (cp i : Nat)
    (b : PageInfo) (h : (build_page_info pages_text cp i).head? = some b) :
    b.char_start = cp := by
  cases pages_text with
  | nil => simp [build_page_info] at h
  | cons t rest =>
    simp only [build_page_info, List.head?_cons, Option.some.injEq] at h
    rw [← h]

theorem build_page_info_chain (pages_text : List (List Char)) :
    ∀ cp i, List.Chain' (fun a b => b.char_start = a.char_end + 1)
      (build_page_info pages_text cp i) := by
  induction pages_text with
  | nil => intro cp i; simp [build_page_info]
  | cons t rest ih =>
    intro cp i
    rw [build_page_info, List.chain'_cons']
    refine ⟨fun b hb => ?_, ih _ _⟩
    simp only [Option.mem_def] at hb
    rw [build_page_info_head_start rest _ _ b hb]

theorem build_page_info_numbers (pages_text : List (List Char)) :
    ∀ cp i, (build_page_info pages_text cp i).map (·.page_number) =
      List.range' (i + 1) pages_text.length := by
  induction pages_text with
  | nil => intro cp i; rfl
  | cons t rest ih =>
    intro cp i
    simp only [build_page_info, List.map_cons, List.length_cons, List.range']
    rw [ih]

theorem intercalate_newline_length :
    ∀ pages_text : List (List Char), pages_text ≠ [] →
      (List.intercalate ['\n'] pages_text).length + 1 =
        (pages_text.map List.length).sum + pages_text.length := by
  intro pages_text
  induction pages_text with
  | nil => intro h; exact absurd rfl h
  | cons t rest ih =>
    intro _
    cases rest with
    | nil => simp [List.intercalate]
    | cons u rest' =>
      have hne : u :: rest' ≠ ([] : List (List Char)) := by simp
      have hrec := ih hne
      have hsplit : List.intercalate ['\n'] (t :: u :: rest') =
          t ++ ['\n'] ++ List.intercalate ['\n'] (u :: rest') := by
        simp [List.intercalate, List.intersperse]
      rw [hsplit]
      simp only [List.map_cons, List.sum_cons, List.length_cons, List.length_append,
        List.length_nil] at *
      omega

/-- C4 (amended): each page's interval has exactly the page's own length (the
separator is left outside every interval), the boundary starts at 0, page
numbers run `1..n` in order, and consecutive boundaries satisfy
`next.charStart = prev.charEnd + 1` — so the list is ordered and non-overlapping
but every separator position is uncovered, and the full text has length
`sum of page lengths + (n - 1)`. -/
theorem page_boundaries_structure (pages_text : List (List Char)) :
    List.Forall₂ (fun p (t : List Char) => p.char_end = p.char_start + t.length)
      (from_ocr_pages pages_text).2 pages_text
    ∧ List.Chain' (fun a b => b.char_start = a.char_end + 1) (from_ocr_pages pages_text).2
    ∧ (from_ocr_pages pages_text).2.map (·.page_number) = List.range' 1 pages_text.length
    ∧ (∀ b, (from_ocr_pages pages_text).2.head? = some b → b.char_start = 0)
    ∧ (pages_text ≠ [] →
        (from_ocr_pages pages_text).1.length + 1 =
          (pages_text.map List.length).sum + pages_text.length) := by
  refine ⟨build_page_info_forall2 pages_text 0 0, build_page_info_chain pages_text 0 0,
    build_page_info_numbers pages_text 0 0,
    fun b hb => build_page_info_head_start pages_text 0 0 b hb,
    intercalate_newline_length pages_text⟩

/-- Witness for C4 (amended) at the concrete two-page input `["a"], ["b"]`. -/
theorem page_boundaries_structure_witness :
    List.Forall₂ (fun p (t : List Char) => p.char_end = p.char_start + t.length)
      (from_ocr_pages [['a'], ['b']]).2 [['a'], ['b']]
    ∧ List.Chain' (fun a b => b.char_start = a.char_end + 1)
        (from_ocr_pages [['a'], ['b']]).2
    ∧ (from_ocr_pages [['a'], ['b']]).2.map (·.page_number) = List.range' 1 2
    ∧ (∀ b, (from_ocr_pages [['a'], ['b']]).2.head? = some b → b.char_start = 0)
    ∧ ([['a'], ['b']] ≠ ([] : List (List Char)) →
        (from_ocr_pages [['a'], ['b']]).1.length + 1 =
          ([['a'], ['b']].map List.length).sum + ([['a'], ['b']] : List (List Char)).length) :=
  page_boundaries_structure [['a'], ['b']]

/-! ### encoding/encoder.py: `EmbeddingEncoder.embed_many` -/

/-- The batch slices `texts[start : start + batch_size]` for
`start in range(0, len(texts), batch_size)` in `EmbeddingEncoder.embed_many`:
start `i * batch_size` for each `i` below `ceil(len / batch_size)`. -/
def sliceBatches (texts : List String) (batch_size : Nat) : List (List String) :=
  (List.range ((texts.length + batch_size - 1) / batch_size)).map
    fun i => (texts.drop (i * batch_size)).take batch_size

/-- `EmbeddingEncoder.embed_many(texts, batch_size=...)` from
`rag/encoding/encoder.py`, with the embedding API call abstracted as `api`
(one call per batch, its results extended onto the output in order). Returns
the vector list and the number of API calls made. -/
def embed_many (api : List String → List (List Int)) (texts : List String)
    (batch_size : Nat) : List (List Int) × Nat :=
  if texts = [] then ([], 0)
  else (((sliceBatches texts batch_size).map api).flatten,
        (sliceBatches texts batch_size).length)

theorem sliceBatches_cons (texts : List String) (bs : Nat) (hbs : 0 < bs)
    (h : texts ≠ []) :
    sliceBatches texts bs = texts.take bs :: sliceBatches (texts.drop bs) bs := by
  have hn : 1 ≤ texts.length := List.length_pos.mpr h
  unfold sliceBatches
  have hcount : (texts.length + bs - 1) / bs = (texts.length - 1) / bs + 1 := by
    have heq : texts.length + bs - 1 = (texts.length - 1) + bs := by omega
    rw [heq, Nat.add_div_right _ hbs]
  have hcount2 : ((texts.drop bs).length + bs - 1) / bs = (texts.length - 1) / bs := by
    rw [List.length_drop]
    rcases Nat.lt_or_ge texts.length (bs + 1) with hle | hgt
    · have h1 : texts.length - bs = 0 := by omega
      rw [h1, Nat.div_eq_of_lt (by omega), Nat.div_eq_of_lt (by omega)]
    · have heq : texts.length - bs + bs - 1 = texts.length - 1 := by omega
      rw [heq]
  rw [hcount, hcount2, List.range_succ_eq_map, List.map_cons, List.map_map]
  refine List.cons_eq_cons.mpr ⟨by simp, ?_⟩
  refine List.map_congr_left fun i _ => ?_
  have hdd : (texts.drop bs).drop (i * bs) = texts.drop (i * bs + bs) := by
    rw [List.drop_drop, Nat.add_comm]
  simp only [Function.comp_apply, Nat.succ_mul, hdd]

theorem sliceBatches_flatten (bs : Nat) (hbs : 0 < bs) (texts : List String) :
    (sliceBatches texts bs).flatten = texts := by
  by_cases h : texts = []
  · subst h
    have h0 : (([] : List String).length + bs - 1) / bs = 0 :=
      Nat.div_eq_of_lt (by simp; omega)
    simp [sliceBatches, h0]
  · rw [sliceBatches_cons texts bs hbs h, List.flatten_cons,
      sliceBatches_flatten bs hbs (texts.drop bs)]
    exact List.take_append_drop bs texts
termination_by texts.length
decreasing_by
  have := List.length_pos.mpr h
  simp only [List.length_drop]
  omega

/-- C7: with each batch embedded item-by-item by a deterministic collaborator
`f`, `embed_many` returns exactly `texts.map f` — same length, same order, no
loss across batch boundaries; every batch has at most `batch_size` items; and
the empty input returns `[]` with zero API calls for any collaborator. -/
theorem embed_many_order_preserving (f : String → List Int)
    (api : List String → List (List Int)) (texts : List String) (bs : Nat)
    (hbs : 0 < bs) :
    (embed_many (fun b => b.map f) texts bs).1 = texts.map f
    ∧ (embed_many (fun b => b.map f) texts bs).1.length = texts.length
    ∧ (sliceBatches texts bs).flatten = texts
    ∧ (∀ b ∈ sliceBatches texts bs, b.length ≤ bs)
    ∧ embed_many api [] bs = ([], 0) := by
  have hflat := sliceBatches_flatten bs hbs texts
  have h1 : (embed_many (fun b => b.map f) texts bs).1 = texts.map f := by
    by_cases h : texts = []
    · subst h; simp [embed_many]
    · simp only [embed_many, if_neg h]
      rw [← List.map_flatten, hflat]
  refine ⟨h1, by rw [h1, List.length_map], hflat, ?_, by simp [embed_many]⟩
  intro b hb
  simp only [sliceBatches, List.mem_map, List.mem_range] at hb
  obtain ⟨i, _, rfl⟩ := hb
  rw [List.length_take]
  exact min_le_left _ _

/-- Witness for C7 at `texts = ["a","b","c"]`, `batch_size = 2`, with the
deterministic stub embedding every text to `[7]`. -/
theorem embed_many_order_preserving_witness :
    (embed_many (fun b => b.map fun _ => ([7] : List Int)) ["a", "b", "c"] 2).1 =
      ["a", "b", "c"].map (fun _ => ([7] : List Int))
    ∧ (embed_many (fun b => b.map fun _ => ([7] : List Int)) ["a", "b", "c"] 2).1.length =
        (["a", "b", "c"] : List String).length
    ∧ (sliceBatches ["a", "b", "c"] 2).flatten = ["a", "b", "c"]
    ∧ (∀ b ∈ sliceBatches ["a", "b", "c"] 2, b.length ≤ 2)
    ∧ embed_many (fun _ => ([] : List (List Int))) [] 2 = ([], 0) :=
  embed_many_order_preserving (fun _ => [7]) (fun _ => []) ["a", "b", "c"] 2 (by decide)

/-! ### vector_db/db.py: `VectorDB` -/

/-- The payload stored with every point: `chunk.model_dump()` of
`ClinicalDocumentChunk` (`services/models.py`), i.e. the `Chunk` fields plus the
ownership fields. -/
structure ChunkPayload where
  chunk_id : Nat
  paper_id : String
  paper_name : String
  text : String
  section_title : Option String
  page_number : Option Nat
  token_count : Nat
  document_id : String
  health_user_ci : String
  clinic_id : String
  created_by : String
deriving DecidableEq, Repr

/-- `FieldCondition(key=..., match=MatchValue(value=...))` with a string value. -/
structure FieldCondition where
  key : String
  value : String
deriving DecidableEq, Repr

/-- String-keyed lookup into the payload map produced by `model_dump()`; keys
that are not fields of `ClinicalDocumentChunk` yield `none`. Only the
string-valued fields can be targeted by the `MatchValue` filters the code
builds. -/
def payloadGet (p : ChunkPayload) (key : String) : Option String :=
  if key = "document_id" then some p.document_id
  else if key = "health_user_ci" then some p.health_user_ci
  else if key = "paper_id" then some p.paper_id
  else if key = "paper_name" then some p.paper_name
  else if key = "clinic_id" then some p.clinic_id
  else if key = "created_by" then some p.created_by
  else if key = "text" then some p.text
  else none

/-- A stored point: generated id, dense vector, payload. -/
structure VPoint where
  id : String
  vector : List Int
  payload : ChunkPayload
deriving DecidableEq, Repr

/-- The vector store's observable state: whether the collection exists, which
payload indexes exist, and the stored points. -/
structure VectorState where
  hasCollection : Bool
  payloadIndexes : List String
  points : List VPoint
deriving DecidableEq, Repr

/-- One client call issued against the store, for tracing which operations a
code path performs. -/
inductive DbCall where
  | createCollection
  | createIndex (field : String)
  | upsertCall (pts : List VPoint)
  | queryCall (conds : List FieldCondition) (limit : Nat)
deriving DecidableEq, Repr

def isUpsertCall : DbCall → Bool
  | DbCall.upsertCall _ => true
  | _ => false

/-- Modelled from the spec: a `MatchValue` condition holds exactly when the
payload's value at `key` equals `value` (a missing key never matches). -/
def matchesCondition (pt : VPoint) (c : FieldCondition) : Bool :=
  payloadGet pt.payload c.key = some c.value

/-- Modelled from the spec: a `Filter(must=conds)` holds when every condition
holds (conjunctive filter). -/
def matchesFilter (conds : List FieldCondition) (pt : VPoint) : Bool :=
  conds.all (matchesCondition pt)

/-- Insertion step for ranking results by descending score. -/
def insertRanked (score : VPoint → Int) (p : VPoint) : List VPoint → List VPoint
  | [] => [p]
  | q :: rest => if score q < score p then p :: q :: rest else q :: insertRanked score p rest

/-- Ranking of candidate points by descending similarity score. -/
def rankByScore (score : VPoint → Int) : List VPoint → List VPoint
  | [] => []
  | p :: rest => insertRanked score p (rankByScore score rest)

/-- Modelled from the spec: the Qdrant `query_points` wire contract — return up
to `limit` stored points whose payloads satisfy the filter, ordered by
descending similarity score. -/
def query_points (points : List VPoint) (score : VPoint → Int)
    (conds : List FieldCondition) (limit : Nat) : List VPoint :=
  (rankByScore score (points.filter (matchesFilter conds))).take limit

/-- Idempotent creation of a payload index (`create_payload_index` with the
already-exists failure swallowed). -/
def ensure_index (s : VectorState) (field : String) : VectorState :=
  if field ∈ s.payloadIndexes then s
  else { s with payloadIndexes := s.payloadIndexes ++ [field] }

/-- `VectorDB.ensure_collection` from `rag/vector_db/db.py`: create the
collection if absent, then ensure the three payload indexes
(`document_id`, `document_name`, `health_user_ci`). -/
def ensure_collection (s : VectorState) : VectorState × List DbCall :=
  let created :=
    if s.hasCollection then (s, ([] : List DbCall))
    else ({ s with hasCollection := true }, [DbCall.createCollection])
  let s2 := ensure_index (ensure_index (ensure_index created.1 "document_id")
    "document_name") "health_user_ci"
  (s2, created.2 ++ [DbCall.createIndex "document_id", DbCall.createIndex "document_name",
    DbCall.createIndex "health_user_ci"])

/-- Modelled from the spec: Qdrant upsert — points with an already-stored id
replace the stored point, the rest are appended. -/
def upsertPoints (existing new : List VPoint) : List VPoint :=
  existing.filter (fun p => !(new.any fun q => q.id = p.id)) ++ new

/-- `VectorDB._build_point`: a freshly generated point id, the vector, and the
chunk's `model_dump()` payload. -/
def build_point (point_id : String) (chunk : ChunkPayload) (vector : List Int) : VPoint :=
  ⟨point_id, vector, chunk⟩

/-- The point list built by `VectorDB.index_document`; the `uuid4()` generator
is abstracted as `idGen`, one fresh id per list position. -/
def build_points (idGen : Nat → String) (chunks : List ChunkPayload)
    (embeddings : List (List Int)) : List VPoint :=
  (chunks.zip embeddings).enum.map fun iv => build_point (idGen iv.1) iv.2.1 iv.2.2

/-- `VectorDB.index_document` from `rag/vector_db/db.py`: raises `ValueError`
before touching the client when the lengths differ; otherwise ensures the
collection, builds one point per chunk and upserts them in one batch call.
Returns the new state, the trace of client calls, and the Python outcome. -/
def index_document (s : VectorState) (chunks : List ChunkPayload)
    (embeddings : List (List Int)) (idGen : Nat → String) :
    VectorState × List DbCall × Except String Unit :=
  if chunks.length ≠ embeddings.length then
    (s, [], Except.error "chunks and embeddings must have the same length")
  else
    let sc := ensure_collection s
    let pts := build_points idGen chunks embeddings
    ({ sc.1 with points := upsertPoints sc.1.points pts },
     sc.2 ++ [DbCall.upsertCall pts], Except.ok ())

/-- The conjunctive filter built by `VectorDB.search`: always the exact-match
`health_user_ci` condition; the `document_id` condition is appended under
Python truthiness (`if document_id:`), i.e. only when the optional id is
present *and* non-empty. -/
def search_filter_conditions (health_user_ci : String) (document_id : Option String) :
    List FieldCondition :=
  let base := [FieldCondition.mk "health_user_ci" health_user_ci]
  match document_id with
  | some d => if d ≠ "" then base ++ [FieldCondition.mk "document_id" d] else base
  | none => base

/-- `VectorDB.search` from `rag/vector_db/db.py`: ensure the collection, build
the ownership filter, and query with it. `score` abstracts cosine similarity
against the query embedding. -/
def vdb_search (s : VectorState) (score : List Int → List Int → Int)
    (embedding : List Int) (limit : Nat) (health_user_ci : String)
    (document_id : Option String) : VectorState × List DbCall × List VPoint :=
  let sc := ensure_collection s
  let conds := search_filter_conditions health_user_ci document_id
  (sc.1, sc.2 ++ [DbCall.queryCall conds limit],
   query_points sc.1.points (fun p => score embedding p.vector) conds limit)

theorem payloadGet_health_user_ci (p : ChunkPayload) :
    payloadGet p "health_user_ci" = some p.health_user_ci := rfl

theorem payloadGet_document_id (p : ChunkPayload) :
    payloadGet p "document_id" = some p.document_id := rfl

theorem mem_insertRanked (score : VPoint → Int) (p r : VPoint) (l : List VPoint) :
    r ∈ insertRanked score p l ↔ r = p ∨ r ∈ l := by
  induction l with
  | nil => simp [insertRanked]
  | cons q rest ih =>
    simp only [insertRanked]
    split
    · simp [List.mem_cons]
    · simp only [List.mem_cons, ih]
      tauto

theorem mem_rankByScore (score : VPoint → Int) (r : VPoint) (l : List VPoint) :
    r ∈ rankByScore score l ↔ r ∈ l := by
  induction l with
  | nil => simp [rankByScore]
  | cons p rest ih =>
    simp only [rankByScore, mem_insertRanked, ih, List.mem_cons]

theorem mem_query_points (points : List VPoint) (score : VPoint → Int)
    (conds : List FieldCondition) (limit : Nat) (r : VPoint)
    (hr : r ∈ query_points points score conds limit) :
    r ∈ points ∧ matchesFilter conds r = true := by
  have h1 := List.mem_of_mem_take hr
  have h2 := (mem_rankByScore score r _).mp h1
  have h3 := List.mem_filter.mp h2
  exact ⟨h3.1, h3.2⟩

/-- C1 counterexample: the claim as stated quantifies over every optional
document identifier, but `search` tests the identifier with Python truthiness
(`if document_id:`), so supplying the empty string omits the document
condition: a stored point whose payload `document_id` is `"X"` is returned by a
search that supplied the document identifier `""`. -/
theorem search_empty_document_id_counterexample :
    ((vdb_search
        ⟨true, [], [⟨"id1", [1], ⟨0, "p", "n", "t", none, none, 0, "X", "111", "c", "u"⟩⟩]⟩
        (fun _ _ => 0) [1] 10 "111" (some "")).2.2).map (fun r => r.payload.document_id) =
      ["X"]
    ∧ ("X" : String) ≠ "" := by
  refine ⟨rfl, by decide⟩

/-- C1 (amended): every point returned by `VectorDB.search` — over any stored
state, any similarity scoring, any limit — has a payload whose
`health_user_ci` equals the requested subject identifier, and, whenever a
*non-empty* document identifier was supplied, a payload `document_id` equal to
it; the ownership condition is part of the filter on every execution path. -/
theorem search_ownership_filter (s : VectorState) (score : List Int → List Int → Int)
    (embedding : List Int) (limit : Nat) (subj : String) (document_id : Option String)
    (r : VPoint) (hr : r ∈ (vdb_search s score embedding limit subj document_id).2.2) :
    r.payload.health_user_ci = subj
    ∧ ∀ d, document_id = some d → d ≠ "" → r.payload.document_id = d := by
  have hq : r ∈ query_points (ensure_collection s).1.points
      (fun p => score embedding p.vector)
      (search_filter_conditions subj document_id) limit := hr
  have hmatch := (mem_query_points _ _ _ _ r hq).2
  have hall : ∀ c ∈ search_filter_conditions subj document_id,
      payloadGet r.payload c.key = some c.value := by
    intro c hc
    have := List.all_eq_true.mp hmatch c hc
    exact of_decide_eq_true this
  constructor
  · have hcimem : FieldCondition.mk "health_user_ci" subj ∈
        search_filter_conditions subj document_id := by
      unfold search_filter_conditions
      cases document_id with
      | none => simp
      | some d =>
        dsimp only
        split <;> simp
    have := hall _ hcimem
    rw [payloadGet_health_user_ci] at this
    exact Option.some.inj this
  · intro d hd hne
    subst hd
    have hdmem : FieldCondition.mk "document_id" d ∈
        search_filter_conditions subj (some d) := by
      unfold search_filter_conditions
      simp [hne]
    have := hall _ hdmem
    rw [payloadGet_document_id] at this
    exact Option.some.inj this

/-- Witness for C1 (amended) at a concrete one-point store searched with
subject `"111"` and document identifier `"X"`. -/
theorem search_ownership_filter_witness :
    (⟨"id1", [1], ⟨0, "p", "n", "t", none, none, 0, "X", "111", "c", "u"⟩⟩ :
        VPoint).payload.health_user_ci = "111"
    ∧ ∀ d, (some "X" : Option String) = some d → d ≠ "" →
        (⟨"id1", [1], ⟨0, "p", "n", "t", none, none, 0, "X", "111", "c", "u"⟩⟩ :
          VPoint).payload.document_id = d :=
  search_ownership_filter
    ⟨true, [], [⟨"id1", [1], ⟨0, "p", "n", "t", none, none, 0, "X", "111", "c", "u"⟩⟩]⟩
    (fun _ _ => 0) [1] 10 "111" (some "X")
    ⟨"id1", [1], ⟨0, "p", "n", "t", none, none, 0, "X", "111", "c", "u"⟩⟩
    (by decide)

theorem ensure_collection_no_upsert (s : VectorState) :
    (ensure_collection s).2.filter isUpsertCall = [] := by
  by_cases h : s.hasCollection <;> simp [ensure_collection, h, isUpsertCall]

/-- C8: `index_document` fails with the length-mismatch `ValueError` before any
client call when `len(chunks) != len(embeddings)` — state unchanged, no
collection creation, no upsert; with equal lengths it succeeds, builds exactly
one point per chunk and issues exactly one upsert call carrying all of them. -/
theorem index_document_length_validation (s : VectorState) (chunks : List ChunkPayload)
    (embeddings : List (List Int)) (idGen : Nat → String) :
    (chunks.length ≠ embeddings.length →
      index_document s chunks embeddings idGen =
        (s, [], Except.error "chunks and embeddings must have the same length"))
    ∧ (chunks.length = embeddings.length →
        (index_document s chunks embeddings idGen).2.2 = Except.ok ()
        ∧ (index_document s chunks embeddings idGen).1.points =
            upsertPoints (ensure_collection s).1.points (build_points idGen chunks embeddings)
        ∧ (build_points idGen chunks embeddings).length = chunks.length
        ∧ (index_document s chunks embeddings idGen).2.1.filter isUpsertCall =
            [DbCall.upsertCall (build_points idGen chunks embeddings)]) := by
  constructor
  · intro h
    simp [index_document, h]
  · intro h
    have hif : ¬(chunks.length ≠ embeddings.length) := fun hh => hh h
    refine ⟨?_, ?_, ?_, ?_⟩
    · simp [index_document, hif]
    · simp [index_document, hif]
    · simp [build_points, h]
    · simp [index_document, hif, List.filter_append, ensure_collection_no_upsert,
        isUpsertCall]

/-- Witness for C8: a mismatched call (0 chunks, 1 vector) fails with the
validation error and an untouched store; a matched call (1 chunk, 1 vector)
succeeds. -/
theorem index_document_length_validation_witness :
    index_document ⟨false, [], []⟩ [] [[1]] (fun _ => "u") =
      (⟨false, [], []⟩, [], Except.error "chunks and embeddings must have the same length")
    ∧ (index_document ⟨false, [], []⟩
        [⟨0, "p", "n", "t", none, none, 0, "X", "111", "c", "u"⟩] [[1]]
        (fun _ => "u")).2.2 = Except.ok () :=
  ⟨(index_document_length_validation ⟨false, [], []⟩ [] [[1]] (fun _ => "u")).1
      (by decide),
   ((index_document_length_validation ⟨false, [], []⟩
      [⟨0, "p", "n", "t", none, none, 0, "X", "111", "c", "u"⟩] [[1]]
      (fun _ => "u")).2 (by decide)).1⟩

/-! ### chunking/models.py: the pydantic `Chunk` model and chunker.py: `chunk_document` -/

/-- The pydantic `Chunk` model (`rag/chunking/models.py`): required fields
`chunk_id`, `paper_id`, `paper_name`, `text`, `token_count`; optional
`section_title` and `page_number` (with `ge=1`). -/
structure Chunk where
  chunk_id : Nat
  paper_id : String
  paper_name : String
  text : List Char
  section_title : Option (List Char)
  page_number : Option Nat
  token_count : Nat
deriving DecidableEq, Repr

/-- The keyword arguments of a `Chunk(...)` call. Pydantic's default model
config ignores unknown keywords, so `document_id` and `document_name` — which
the chunker passes but the model does not declare — are recorded here only to
be ignored by validation. -/
structure ChunkKwargs where
  chunk_id : Option Nat := none
  paper_id : Option String := none
  paper_name : Option String := none
  text : Option (List Char) := none
  section_title : Option (Option (List Char)) := none
  page_number : Option (Option Nat) := none
  token_count : Option Nat := none
  document_id : Option String := none
  document_name : Option String := none

/-- Pydantic validation of a `Chunk(...)` construction: every field without a
default must be supplied, a supplied `page_number` must satisfy `ge=1`, and
unknown keywords are ignored. -/
def Chunk.validate (kw : ChunkKwargs) : Except String Chunk :=
  match kw.chunk_id, kw.paper_id, kw.paper_name, kw.text, kw.token_count with
  | some cid, some pid, some pname, some t, some tc =>
    match kw.page_number.getD none with
    | some n =>
      if n < 1 then Except.error "validation error: page_number must be ge 1"
      else Except.ok ⟨cid, pid, pname, t, kw.section_title.getD none, some n, tc⟩
    | none => Except.ok ⟨cid, pid, pname, t, kw.section_title.getD none, none, tc⟩
  | _, _, _, _, _ => Except.error "validation error: field required"

/-- The chunk-construction loop of `PDFChunker.chunk_document`
(`rag/chunking/chunker.py`), iterating over the pieces produced by the
langchain splitters (external collaborators; their output is this function's
input, flattened in source order as (section_title, piece_text) pairs). Each
iteration resolves the page, then constructs
`Chunk(chunk_id=len(chunks), document_id=..., document_name=..., text=...,
section_title=..., page_number=..., token_count=...)` — supplying neither
`paper_id` nor `paper_name`, exactly as the source does. A raised
`ValidationError` aborts the whole call. -/
def chunk_document_loop (page_info : List PageInfo) (doc_id doc_name : String)
    (tok : List Char → Nat) :
    List (Option (List Char) × List Char) → List Chunk → Int → Option (List Char) →
    Except String (List Chunk)
  | [], chunks, _, _ => Except.ok chunks
  | (stitle, piece) :: rest, chunks, cursor, prev =>
    let pc := resolve_chunk_page page_info piece cursor prev
    let kw : ChunkKwargs :=
      { chunk_id := some chunks.length, document_id := some doc_id,
        document_name := some doc_name, text := some piece,
        section_title := some stitle, page_number := some pc.1,
        token_count := some (tok piece) }
    match Chunk.validate kw with
    | Except.error e => Except.error e
    | Except.ok c =>
      chunk_document_loop page_info doc_id doc_name tok rest (chunks ++ [c]) pc.2 (some piece)

/-- `PDFChunker.chunk_document`, with the header splitter's output abstracted
as `splits` (one entry per header section: resolved deepest section title and
the size-split pieces of that section, in order). -/
def chunk_document (page_info : List PageInfo) (doc_id doc_name : String)
    (tok : List Char → Nat)
    (splits : List (Option (List Char) × List (List Char))) : Except String (List Chunk) :=
  chunk_document_loop page_info doc_id doc_name tok
    (splits.flatMap fun st => st.2.map fun p => (st.1, p)) [] 0 none

/-- C2: because `Chunk` requires `paper_id` and `paper_name` but the chunker
constructs it with `document_id`/`document_name` keywords instead,
`chunk_document` raises a validation error for every document that yields at
least one split piece, and returns normally (an empty list) exactly when the
splitters produce zero pieces. -/
theorem chunk_document_validation_failure (page_info : List PageInfo)
    (doc_id doc_name : String) (tok : List Char → Nat)
    (splits : List (Option (List Char) × List (List Char))) :
    ((splits.flatMap fun st => st.2.map fun p => (st.1, p)) = [] →
      chunk_document page_info doc_id doc_name tok splits = Except.ok [])
    ∧ ((splits.flatMap fun st => st.2.map fun p => (st.1, p)) ≠ [] →
      chunk_document page_info doc_id doc_name tok splits =
        Except.error "validation error: field required") := by
  constructor
  · intro h
    unfold chunk_document
    rw [h]
    rfl
  · intro h
    obtain ⟨⟨stitle, piece⟩, rest, hsplit⟩ :
        ∃ a l, (splits.flatMap fun st => st.2.map fun p => (st.1, p)) = a :: l := by
      rcases hp : splits.flatMap fun st => st.2.map fun p => (st.1, p) with _ | ⟨a, l⟩
      · exact absurd hp h
      · exact ⟨a, l, rfl⟩
    unfold chunk_document
    rw [hsplit]
    rfl

/-- Witness for C2: zero pieces return `[]`; a single piece `"a"` fails with
the validation error. -/
theorem chunk_document_validation_failure_witness :
    chunk_document [] "d" "n" (fun t => t.length) [] = Except.ok []
    ∧ chunk_document [] "d" "n" (fun t => t.length) [(none, [['a']])] =
        Except.error "validation error: field required" :=
  ⟨(chunk_document_validation_failure [] "d" "n" (fun t => t.length) []).1 rfl,
   (chunk_document_validation_failure [] "d" "n" (fun t => t.length)
      [(none, [['a']])]).2 (by decide)⟩

/-! ### services/rag_service.py: `RAGService.index_document` -/

/-- Observable outcome of the background ingestion flow: either success or a
failure that was logged and swallowed. -/
inductive IndexOutcome where
  | success
  | loggedFailure (msg : String)
deriving DecidableEq, Repr

/-- The try-block body of `RAGService.index_document`
(`services/rag_service.py`): download from S3, parse the PDF, chunk it,
convert each chunk to a `ClinicalDocumentChunk` (a further pydantic
construction), embed the chunk texts, and index. Every collaborator is a
parameter returning `Except` (a raised Python exception is `Except.error`). -/
def rag_pipeline {Pdf Parsed : Type}
    (download : Except String Pdf)
    (parse : Pdf → Except String Parsed)
    (chunkf : Parsed → Except String (List Chunk))
    (convert : Chunk → Except String ChunkPayload)
    (embedf : List String → Except String (List (List Int)))
    (indexf : Parsed → List ChunkPayload → List (List Int) → Except String Unit) :
    Except String Unit := do
  let pdf ← download
  let parsed ← parse pdf
  let baseChunks ← chunkf parsed
  let clinicalChunks ← baseChunks.mapM convert
  let embeddings ← embedf (clinicalChunks.map fun c => c.text)
  indexf parsed clinicalChunks embeddings

/-- `RAGService.index_document`: the whole pipeline body runs inside
`try: ... except Exception: log; # Don't raise`, so the method itself returns
normally for every collaborator behaviour. The outer `Except` models an
exception propagating to the caller. -/
def rag_index_document {Pdf Parsed : Type}
    (download : Except String Pdf)
    (parse : Pdf → Except String Parsed)
    (chunkf : Parsed → Except String (List Chunk))
    (convert : Chunk → Except String ChunkPayload)
    (embedf : List String → Except String (List (List Int)))
    (indexf : Parsed → List ChunkPayload → List (List Int) → Except String Unit) :
    Except String IndexOutcome :=
  Except.ok
    (match rag_pipeline download parse chunkf convert embedf indexf with
     | Except.ok _ => IndexOutcome.success
     | Except.error e => IndexOutcome.loggedFailure e)

/-- C9: for every behaviour of the download/parse/chunk/convert/embed/index
collaborators, `RAGService.index_document` returns normally — a pipeline
failure becomes a logged outcome, never an exception to the caller. -/
theorem rag_index_document_never_raises {Pdf Parsed : Type}
    (download : Except String Pdf)
    (parse : Pdf → Except String Parsed)
    (chunkf : Parsed → Except String (List Chunk))
    (convert : Chunk → Except String ChunkPayload)
    (embedf : List String → Except String (List (List Int)))
    (indexf : Parsed → List ChunkPayload → List (List Int) → Except String Unit) :
    (∃ r, rag_index_document download parse chunkf convert embedf indexf = Except.ok r)
    ∧ (∀ e, rag_pipeline download parse chunkf convert embedf indexf = Except.error e →
        rag_index_document download parse chunkf convert embedf indexf =
          Except.ok (IndexOutcome.loggedFailure e))
    ∧ (rag_pipeline download parse chunkf convert embedf indexf = Except.ok () →
        rag_index_document download parse chunkf convert embedf indexf =
          Except.ok IndexOutcome.success) := by
  refine ⟨⟨_, rfl⟩, ?_, ?_⟩
  · intro e he
    simp [rag_index_document, he]
  · intro h
    simp [rag_index_document, h]

/-- Witness for C9: a failing S3 download is swallowed into a logged outcome. -/
theorem rag_index_document_never_raises_witness :
    rag_index_document (Except.error "s3 down" : Except String Unit)
      (fun _ => Except.ok ()) (fun _ => Except.ok [])
      (fun _ => Except.error "validation error: field required")
      (fun _ => Except.ok []) (fun _ _ _ => Except.ok ()) =
      Except.ok (IndexOutcome.loggedFailure "s3 down") :=
  (rag_index_document_never_raises (Except.error "s3 down" : Except String Unit)
      (fun _ => Except.ok ()) (fun _ => Except.ok [])
      (fun _ => Except.error "validation error: field required")
      (fun _ => Except.ok []) (fun _ _ _ => Except.ok ())).2.1 "s3 down" rfl

/-! ### services/chat_service.py: `ChatService.chat` -/

/-- A scored search result as seen by the chat service: an optional payload
(the code guards with `chunk.payload or {}`) and a similarity score. -/
structure ScoredPointM where
  payload : Option ChunkPayload
  score : Int
deriving DecidableEq, Repr

/-- `ChatRequest` (`api/schemas.py`): query, role-tagged history, subject CI,
optional document id. -/
structure ChatRequestM where
  query : String
  conversation_history : List (String × String)
  health_user_ci : String
  document_id : Option String

/-- `ChunkSource` (`api/schemas.py`). -/
structure ChunkSource where
  document_id : String
  chunk_id : String
  text : String
  similarity_score : Int
  page_number : Option Nat
  section_title : Option String
deriving DecidableEq, Repr

/-- One entry of `ChatService._build_context`: document tag, text, and the
page/section annotation added under Python truthiness (`if page_number:` —
0 and `None` are falsy; `if section_title:` — the empty string is falsy). -/
def build_context_part (c : ScoredPointM) : String :=
  let document_id := match c.payload with | some q => q.document_id | none => "unknown"
  let text := match c.payload with | some q => q.text | none => ""
  let page_number := match c.payload with | some q => q.page_number | none => none
  let section_title := match c.payload with | some q => q.section_title | none => none
  let base := "[Document: " ++ document_id ++ "]\n" ++ text
  let annotated :=
    match page_number with
    | some pn =>
      if pn ≠ 0 then
        match section_title with
        | some st =>
          if st ≠ "" then base ++ "\n(Page " ++ toString pn ++ ", Section: " ++ st ++ ")"
          else base ++ "\n(Page " ++ toString pn ++ ")"
        | none => base ++ "\n(Page " ++ toString pn ++ ")"
      else base
    | none => base
  annotated ++ "\n---\n"

/-- `ChatService._build_context`: `"\n".join(context_parts)`. -/
def build_context (chunks : List ScoredPointM) : String :=
  String.intercalate "\n" (chunks.map build_context_part)

/-- The system instruction of `ChatService._build_messages`. -/
def chat_system_message : String :=
  "You are a medical assistant helping healthcare workers understand " ++
  "patient documents. Use ONLY the provided context from the documents. " ++
  "If information is not in the context, say so. Be concise and accurate."

/-- `ChatService._build_messages`: system instruction, context message, the
replayed history in order, then the current query. -/
def build_messages (req : ChatRequestM) (context : String) : List (String × String) :=
  ("system", chat_system_message) ::
    ("user", "Context from documents:\n\n" ++ context) ::
    (req.conversation_history ++ [("user", req.query)])

/-- One entry of `ChatService._format_sources`. -/
def format_source (c : ScoredPointM) : ChunkSource :=
  { document_id := match c.payload with | some q => q.document_id | none => ""
    chunk_id := match c.payload with | some q => toString q.chunk_id | none => ""
    text := match c.payload with | some q => q.text | none => ""
    similarity_score := c.score
    page_number := match c.payload with | some q => q.page_number | none => none
    section_title := match c.payload with | some q => q.section_title | none => none }

/-- The fixed empty-result answer of `ChatService.chat`. -/
def no_info_answer : String := "I couldn't find relevant information in the documents."

/-- `ChatService.chat` (`services/chat_service.py`): embed the query, search
with `limit=10`, short-circuit on zero chunks, otherwise build context and
messages, generate, and format sources. The embedding, search and generation
collaborators are parameters; their `Except.error` is a raised exception. -/
def chat (embed : String → Except String (List Int))
    (searchf : List Int → Nat → String → Option String →
      Except String (List ScoredPointM))
    (generate : List (String × String) → Except String String)
    (req : ChatRequestM) : Except String (String × List ChunkSource) :=
  match embed req.query with
  | Except.error e => Except.error e
  | Except.ok query_embedding =>
    match searchf query_embedding 10 req.health_user_ci req.document_id with
    | Except.error e => Except.error e
    | Except.ok chunks =>
      if chunks.isEmpty then Except.ok (no_info_answer, [])
      else
        match generate (build_messages req (build_context chunks)) with
        | Except.error e => Except.error e
        | Except.ok answer => Except.ok (answer, chunks.map format_source)

/-- C10: when the search (called with `limit=10`) returns zero chunks, `chat`
returns the fixed no-information answer with an empty source list, without
raising and independently of the generation collaborator; an embedding or
search failure instead propagates as an error. -/
theorem chat_zero_chunks_short_circuit
    (embed : String → Except String (List Int))
    (searchf : List Int → Nat → String → Option String →
      Except String (List ScoredPointM))
    (g g1 g2 : List (String × String) → Except String String)
    (req : ChatRequestM) (v : List Int) (e : String) :
    (embed req.query = Except.ok v →
      searchf v 10 req.health_user_ci req.document_id = Except.ok [] →
      chat embed searchf g req = Except.ok (no_info_answer, []))
    ∧ (embed req.query = Except.ok v →
      searchf v 10 req.health_user_ci req.document_id = Except.ok [] →
      chat embed searchf g1 req = chat embed searchf g2 req)
    ∧ (embed req.query = Except.error e → chat embed searchf g req = Except.error e)
    ∧ (embed req.query = Except.ok v →
      searchf v 10 req.health_user_ci req.document_id = Except.error e →
      chat embed searchf g req = Except.error e) := by
  refine ⟨?_, ?_, ?_, ?_⟩
  · intro h1 h2
    simp only [chat, h1, h2]
    rfl
  · intro h1 h2
    simp only [chat, h1, h2]
    rfl
  · intro h1
    simp only [chat, h1]
  · intro h1 h2
    simp only [chat, h1, h2]

/-- Witness for C10 at a concrete request with stub collaborators: zero chunks
give the fixed answer with no sources; a failing embed or search propagates. -/
theorem chat_zero_chunks_short_circuit_witness :
    chat (fun _ => Except.ok [1]) (fun _ _ _ _ => Except.ok [])
      (fun _ => Except.ok "ans") ⟨"q", [], "111", none⟩ =
      Except.ok (no_info_answer, [])
    ∧ chat (fun _ => Except.error "embedding failure")
        (fun _ _ _ _ => Except.ok []) (fun _ => Except.ok "ans")
        ⟨"q", [], "111", none⟩ = Except.error "embedding failure"
    ∧ chat (fun _ => Except.ok [1]) (fun _ _ _ _ => Except.error "search failure")
        (fun _ => Except.ok "ans") ⟨"q", [], "111", none⟩ =
        Except.error "search failure" :=
  ⟨(chat_zero_chunks_short_circuit (fun _ => Except.ok [1]) (fun _ _ _ _ => Except.ok [])
      (fun _ => Except.ok "ans") (fun _ => Except.ok "ans") (fun _ => Except.ok "ans")
      ⟨"q", [], "111", none⟩ [1] "x").1 rfl rfl,
   (chat_zero_chunks_short_circuit (fun _ => Except.error "embedding failure")
      (fun _ _ _ _ => Except.ok []) (fun _ => Except.ok "ans") (fun _ => Except.ok "ans")
      (fun _ => Except.ok "ans") ⟨"q", [], "111", none⟩ [1] "embedding failure").2.2.1 rfl,
   (chat_zero_chunks_short_circuit (fun _ => Except.ok [1])
      (fun _ _ _ _ => Except.error "search failure") (fun _ => Except.ok "ans")
      (fun _ => Except.ok "ans") (fun _ => Except.ok "ans")
      ⟨"q", [], "111", none⟩ [1] "search failure").2.2.2 rfl rfl⟩

/-! ### parsing/section_extractor.py: `extract_sections`

The extractor runs `re.finditer(r"^(#{1,6})\s+(.+)$", text, re.MULTILINE)`.
The embedding below reproduces that regex's semantics on the ASCII whitespace
class: `^` anchors at position 0 or right after a newline; `#{1,6}` consumes
the full run of `#` (a run longer than 6 can never match, because the character
after the consumed hashes would be `#`, not whitespace); `\s+` greedily
consumes whitespace — including newlines — and backtracks until `(.+)$` can
match at least one non-newline character up to its line end; `finditer` scans
left to right, resuming after each match's end. -/

/-- The Python `\s` class (ASCII range): space, tab, newline, carriage return,
vertical tab, form feed. -/
def isPyWS (c : Char) : Bool :=
  c == ' ' || c == '\t' || c == '\n' || c == '\r' || c == '\x0b' || c == '\x0c'

/-- Python `str.strip()`: remove leading and trailing whitespace. -/
def pyStrip (l : List Char) : List Char :=
  ((l.dropWhile isPyWS).reverse.dropWhile isPyWS).reverse

/-- A raw regex match: span `[start, stop)`, hash-run length, and the text
captured by `(.+)` (unstripped). -/
structure RawMatch where
  start : Nat
  stop : Nat
  level : Nat
  group2 : List Char
deriving DecidableEq, Repr

/-- Backtracking of the greedy `\s+`: starting from the maximal whitespace run
length, find the largest count `t ≥ 1` of consumed whitespace such that the
character right after it exists and is not a newline (so `(.+)` can start). -/
def wsBacktrack (afterH : List Char) : Nat → Option Nat
  | 0 => none
  | t + 1 =>
    match afterH.get? (t + 1) with
    | some c => if c = '\n' then wsBacktrack afterH t else some (t + 1)
    | none => wsBacktrack afterH t

/-- Attempt of the header pattern at anchored position `p`. -/
def tryMatch (s : List Char) (p : Nat) : Option RawMatch :=
  let tail := s.drop p
  let hashes := (tail.takeWhile (· == '#')).length
  if hashes = 0 ∨ 6 < hashes then none
  else
    let afterH := tail.drop hashes
    let w := (afterH.takeWhile isPyWS).length
    match wsBacktrack afterH w with
    | none => none
    | some t =>
      let content := (afterH.drop t).takeWhile (· != '\n')
      some ⟨p, p + hashes + t + content.length, hashes, content⟩

/-- `^` in `re.MULTILINE`: position 0 or a position right after a newline. -/
def isAnchor (s : List Char) (p : Nat) : Bool :=
  p == 0 || s.get? (p - 1) == some '\n'

/-- Leftmost anchored match at a position `≥ i` (fuel-driven scan; the fuel
`s.length + 1 - i` supplied by `findFrom` covers every position up to the end
of the text, where the pattern can no longer match). -/
def findFromAux (s : List Char) : Nat → Nat → Option RawMatch
  | 0, _ => none
  | fuel + 1, i =>
    if s.length ≤ i then none
    else if isAnchor s i then
      match tryMatch s i with
      | some m => some m
      | none => findFromAux s fuel (i + 1)
    else findFromAux s fuel (i + 1)

def findFrom (s : List Char) (i : Nat) : Option RawMatch :=
  findFromAux s (s.length + 1 - i) i

/-- `re.finditer`: repeatedly take the leftmost match and resume at its end
(every match consumes at least three characters, so `s.length + 1` rounds of
fuel are more than the number of possible matches). -/
def scanAux (s : List Char) : Nat → Nat → List RawMatch
  | 0, _ => []
  | fuel + 1, i =>
    match findFrom s i with
    | none => []
    | some m => m :: scanAux s fuel m.stop

def findMatches (s : List Char) : List RawMatch := scanAux s (s.length + 1) 0

/-- The `end_index` fixup loop of `extract_sections`: each section ends where
the next one starts; the last ends at the text length. -/
def assignEnds (textLen : Nat) : List (List Char × Nat × Nat) → List SectionInfo
  | [] => []
  | [(t, st, lv)] => [⟨t, st, textLen, lv⟩]
  | (t, st, lv) :: (t2, st2, lv2) :: rest =>
    ⟨t, st, st2, lv⟩ :: assignEnds textLen ((t2, st2, lv2) :: rest)

/-- `extract_sections(markdown_text)` from `rag/parsing/section_extractor.py`:
one section per regex match, `title = match.group(2).strip()`,
`start_index = match.start()`, `level = len(match.group(1))`, ends assigned by
the fixup loop. -/
def extract_sections (s : List Char) : List SectionInfo :=
  assignEnds s.length ((findMatches s).map fun m => (pyStrip m.group2, m.start, m.level))

theorem tryMatch_inv (s : List Char) (p : Nat) (m : RawMatch)
    (h : tryMatch s p = some m) :
    m.start = p ∧ m.level = ((s.drop p).takeWhile (· == '#')).length
    ∧ 1 ≤ m.level ∧ m.level ≤ 6 := by
  simp only [tryMatch] at h
  split at h
  · exact absurd h (by simp)
  · next h0 =>
    split at h
    · exact absurd h (by simp)
    · rw [Option.some.injEq] at h
      subst h
      refine ⟨rfl, rfl, ?_, ?_⟩ <;> (dsimp only; omega)

theorem findFromAux_sound (s : List Char) :
    ∀ fuel i m, findFromAux s fuel i = some m →
      isAnchor s m.start = true ∧ tryMatch s m.start = some m := by
  intro fuel
  induction fuel with
  | zero => intro i m h; cases h
  | succ f ih =>
    intro i m h
    simp only [findFromAux] at h
    split at h
    · cases h
    · split at h
      · next hanch =>
        split at h
        · next m' hm' =>
          rw [Option.some.injEq] at h
          subst h
          have hst := (tryMatch_inv s i m' hm').1
          rw [hst]
          exact ⟨hanch, hm'⟩
        · exact ih _ m h
      · exact ih _ m h

theorem scanAux_sound (s : List Char) :
    ∀ fuel i m, m ∈ scanAux s fuel i →
      isAnchor s m.start = true ∧ tryMatch s m.start = some m := by
  intro fuel
  induction fuel with
  | zero => intro i m h; cases h
  | succ f ih =>
    intro i m h
    simp only [scanAux] at h
    split at h
    · cases h
    · next m' hm' =>
      rcases List.mem_cons.mp h with rfl | hmem
      · exact findFromAux_sound s _ i m hm'
      · exact ih _ m hmem

theorem findMatches_sound (s : List Char) (m : RawMatch) (h : m ∈ findMatches s) :
    isAnchor s m.start = true ∧ tryMatch s m.start = some m :=
  scanAux_sound s _ 0 m h

theorem assignEnds_proj (L : Nat) :
    ∀ raws, (assignEnds L raws).map
      (fun sec => (sec.title, sec.start_index, sec.level)) = raws := by
  intro raws
  induction raws with
  | nil => rfl
  | cons a tail ih =>
    cases tail with
    | nil => obtain ⟨t, st, lv⟩ := a; rfl
    | cons b rest =>
      obtain ⟨t, st, lv⟩ := a
      obtain ⟨t2, st2, lv2⟩ := b
      simp only [assignEnds, List.map_cons]
      rw [show ((⟨t, st, st2, lv⟩ : SectionInfo).title,
          (⟨t, st, st2, lv⟩ : SectionInfo).start_index,
          (⟨t, st, st2, lv⟩ : SectionInfo).level) = (t, st, lv) from rfl]
      rw [show (assignEnds L ((t2, st2, lv2) :: rest)).map
          (fun sec => (sec.title, sec.start_index, sec.level)) = (t2, st2, lv2) :: rest
        from ih]

theorem assignEnds_head_start (L : Nat) (r : List Char × Nat × Nat)
    (rest : List (List Char × Nat × Nat)) (sec : SectionInfo)
    (h : (assignEnds L (r :: rest)).head? = some sec) :
    sec.start_index = r.2.1 := by
  obtain ⟨t, st, lv⟩ := r
  cases rest with
  | nil =>
    simp only [assignEnds, List.head?_cons, Option.some.injEq] at h
    rw [← h]
  | cons b rest' =>
    obtain ⟨t2, st2, lv2⟩ := b
    simp only [assignEnds, List.head?_cons, Option.some.injEq] at h
    rw [← h]

theorem assignEnds_chain (L : Nat) :
    ∀ raws, List.Chain' (fun a b => a.end_index = b.start_index) (assignEnds L raws) := by
  intro raws
  induction raws with
  | nil => simp [assignEnds]
  | cons a tail ih =>
    cases tail with
    | nil => obtain ⟨t, st, lv⟩ := a; simp [assignEnds]
    | cons b rest =>
      obtain ⟨t, st, lv⟩ := a
      obtain ⟨t2, st2, lv2⟩ := b
      rw [show assignEnds L ((t, st, lv) :: (t2, st2, lv2) :: rest) =
        ⟨t, st, st2, lv⟩ :: assignEnds L ((t2, st2, lv2) :: rest) from rfl]
      rw [List.chain'_cons']
      refine ⟨fun y hy => ?_, ih⟩
      have hys := assignEnds_head_start L (t2, st2, lv2) rest y (Option.mem_def.mp hy)
      exact hys.symm

theorem assignEnds_last_end (L : Nat) :
    ∀ raws sec, (assignEnds L raws).getLast? = some sec → sec.end_index = L := by
  intro raws
  induction raws with
  | nil => intro sec h; cases h
  | cons a tail ih =>
    cases tail with
    | nil =>
      intro sec h
      obtain ⟨t, st, lv⟩ := a
      simp only [assignEnds, List.getLast?_singleton, Option.some.injEq] at h
      rw [← h]
    | cons b rest =>
      intro sec h
      obtain ⟨t, st, lv⟩ := a
      obtain ⟨t2, st2, lv2⟩ := b
      rw [show assignEnds L ((t, st, lv) :: (t2, st2, lv2) :: rest) =
        ⟨t, st, st2, lv⟩ :: assignEnds L ((t2, st2, lv2) :: rest) from rfl] at h
      obtain ⟨c, cs, hc⟩ : ∃ c cs, assignEnds L ((t2, st2, lv2) :: rest) = c :: cs := by
        cases rest with
        | nil => exact ⟨⟨t2, st2, L, lv2⟩, [], rfl⟩
        | cons d rest' =>
          obtain ⟨t3, st3, lv3⟩ := d
          exact ⟨⟨t2, st2, st3, lv2⟩, assignEnds L ((t3, st3, lv3) :: rest'), rfl⟩
      rw [hc, List.getLast?_cons_cons] at h
      exact ih sec (by rw [hc]; exact h)

/-- The spec's own section-extraction example `"# A\n\nbody\n\n## B\n\nmore"`. -/
def sampleHeaderText : List Char :=
  ['#', ' ', 'A', '\n', '\n', 'b', 'o', 'd', 'y', '\n', '\n',
   '#', '#', ' ', 'B', '\n', '\n', 'm', 'o', 'r', 'e']

/-- C6 counterexample: on the text `"#\nB"` the regex's `\s+` crosses the
newline, so the single extracted section has title `"B"` — taken from the line
*after* the header — while the trimmed remainder of the header's own line
(everything after the hashes up to the newline, stripped) is empty. The claim
that a section's title always equals the trimmed remainder of the header line
is therefore false. -/
theorem extract_sections_title_crosses_newline :
    extract_sections ['#', '\n', 'B'] = [⟨['B'], 0, 3, 1⟩]
    ∧ pyStrip ((['#', '\n', 'B'].dropWhile (· == '#')).takeWhile (· != '\n')) = [] := by
  decide

/-- C6 (amended): `extract_sections` produces one section per regex match, with
`level` equal to the run of leading `#` (1–6) at the match's line-anchored
start position, consecutive sections chained (`endIndex` = next `startIndex`,
last `endIndex` = text length), the empty list when there is no match, and the
spec's example text yielding its two sections; a section's title is the trimmed
text captured after the hashes and the following whitespace, which may come
from a later line when the header's own line has nothing after the hashes. -/
theorem extract_sections_structure (s : List Char) :
    List.Chain' (fun a b => a.end_index = b.start_index) (extract_sections s)
    ∧ (∀ sec, (extract_sections s).getLast? = some sec → sec.end_index = s.length)
    ∧ (∀ sec ∈ extract_sections s,
        1 ≤ sec.level ∧ sec.level ≤ 6 ∧ isAnchor s sec.start_index = true
        ∧ sec.level = ((s.drop sec.start_index).takeWhile (· == '#')).length)
    ∧ (findMatches s = [] → extract_sections s = [])
    ∧ extract_sections sampleHeaderText = [⟨['A'], 0, 11, 1⟩, ⟨['B'], 11, 21, 2⟩] := by
  refine ⟨assignEnds_chain _ _, fun sec h => assignEnds_last_end _ _ sec h, ?_, ?_,
    by decide⟩
  · intro sec hsec
    have hproj : (sec.title, sec.start_index, sec.level) ∈
        (findMatches s).map fun m => (pyStrip m.group2, m.start, m.level) := by
      rw [← assignEnds_proj s.length
        ((findMatches s).map fun m => (pyStrip m.group2, m.start, m.level))]
      exact List.mem_map_of_mem _ hsec
    obtain ⟨m, hm, heq⟩ := List.mem_map.mp hproj
    obtain ⟨hanch, htm⟩ := findMatches_sound s m hm
    obtain ⟨_, hlv, h1, h6⟩ := tryMatch_inv s m.start m htm
    rw [Prod.mk.injEq, Prod.mk.injEq] at heq
    obtain ⟨-, hs', hl'⟩ := heq
    rw [← hs', ← hl']
    exact ⟨h1, h6, hanch, hlv⟩
  · intro h
    unfold extract_sections
    rw [h]
    rfl

/-- Witness for C6 (amended) at the spec's example text, checking the chain,
the last section's end, and the member facts for the `"B"` section. -/
theorem extract_sections_structure_witness :
    List.Chain' (fun a b => a.end_index = b.start_index)
      (extract_sections sampleHeaderText)
    ∧ (⟨['B'], 11, 21, 2⟩ : SectionInfo).end_index = sampleHeaderText.length
    ∧ (1 ≤ (⟨['B'], 11, 21, 2⟩ : SectionInfo).level
        ∧ (⟨['B'], 11, 21, 2⟩ : SectionInfo).level ≤ 6
        ∧ isAnchor sampleHeaderText (⟨['B'], 11, 21, 2⟩ : SectionInfo).start_index = true
        ∧ (⟨['B'], 11, 21, 2⟩ : SectionInfo).level =
            ((sampleHeaderText.drop
              (⟨['B'], 11, 21, 2⟩ : SectionInfo).start_index).takeWhile (· == '#')).length) := by
  refine ⟨(extract_sections_structure sampleHeaderText).1, ?_, ?_⟩
  · exact (extract_sections_structure sampleHeaderText).2.1 ⟨['B'], 11, 21, 2⟩ (by decide)
  · exact (extract_sections_structure sampleHeaderText).2.2.1 ⟨['B'], 11, 21, 2⟩ (by decide)
